import Mathlib

/-!
Reverse proxy of play-with-ansible: target resolution and relay handler.

A shallow embedding of `handlers/reverseproxy.go`.

* Go strings are modelled by Lean `String`s. Every library call of the source
  inspects ASCII bytes only (`:`, `-`, `.`, `http`, digits), so working on
  characters agrees with Go's byte-wise behaviour on well-formed UTF-8.
* `map[string]string` is an association list; a missing key reads as `""`,
  as a Go map lookup does.
* The instance registry (`core`) and `config.PortNumber` are external to the
  file and are parameters (`Env`).
* `ServeHTTP` is effectful; it is embedded as a function from the oracles that
  decide the outcome of each effect to the sequence of effects performed.
-/

namespace strings

/-- Go `strings.Split(s, sep)` for a one-byte separator, on character lists:
the pieces between the occurrences of `sep`; never the empty list. -/
def splitChars (sep : Char) : List Char → List (List Char)
  | [] => [[]]
  | c :: cs =>
    if c = sep then [] :: splitChars sep cs
    else
      match splitChars sep cs with
      | [] => [[c]]
      | piece :: pieces => (c :: piece) :: pieces

/-- Go `strings.Split(s, sep)` where `sep` is the one-byte string of `sep`. -/
def Split (s : String) (sep : Char) : List String :=
  (splitChars sep s.toList).map String.mk

/-- Go `strings.Replace(s, old, new, -1)` for one-byte `old` and `new`:
every occurrence is replaced. -/
def Replace (s : String) (old new : Char) : String :=
  String.mk (s.toList.map fun c => if c = old then new else c)

/-- Whether `pat` occurs in `cs` as a contiguous run. -/
def containsChars (pat : List Char) : List Char → Bool
  | [] => pat.isEmpty
  | c :: cs => pat.isPrefixOf (c :: cs) || containsChars pat cs

/-- Go `strings.Contains(s, substr)`. -/
def Contains (s substr : String) : Bool :=
  containsChars substr.toList s.toList

end strings

namespace net

/-- Whether `c` is an ASCII decimal digit. -/
def isDigit (c : Char) : Bool := '0'.toNat ≤ c.toNat && c.toNat ≤ '9'.toNat

/-- Whether `c` is an ASCII hexadecimal digit. -/
def isHexDigit (c : Char) : Bool :=
  isDigit c || ('a'.toNat ≤ c.toNat && c.toNat ≤ 'f'.toNat)
    || ('A'.toNat ≤ c.toNat && c.toNat ≤ 'F'.toNat)

/-- The loop of Go `parseIPv4Fields`: scans a dotted quad, `first` telling
whether the character is the first of the input, `prevDot` whether the previous
one was a dot, `val` and `digLen` the value and digit count of the current
octet, `pos` the number of octets completed. An octet is at most 255 and has no
leading zero; exactly three dots, none leading, trailing or doubled. -/
def parseIPv4Fields : List Char → Bool → Bool → Nat → Nat → Nat → Bool
  | [], _, _, _, pos, _ => !(decide (pos < 3))
  | c :: cs, first, prevDot, val, pos, digLen =>
    if isDigit c then
      if digLen = 1 ∧ val = 0 then false
      else if val * 10 + (c.toNat - '0'.toNat) > 255 then false
      else parseIPv4Fields cs false false (val * 10 + (c.toNat - '0'.toNat)) pos (digLen + 1)
    else if c = '.' then
      if first ∨ cs.isEmpty ∨ prevDot then false
      else if pos = 3 then false
      else parseIPv4Fields cs false true 0 (pos + 1) 0
    else false

/-- Go `parseIPv4`: whether the text is an IPv4 address in dotted decimal. -/
def parseIPv4 (s : List Char) : Bool := parseIPv4Fields s true false 0 0 0

/-- The main loop of Go `parseIPv6`: `s` is the unread text, `i` the number of
address bytes filled so far, `ellipsis` whether a `::` was seen. Each round
reads a group of one to four hex digits, or a trailing embedded IPv4 address.
The result is the unread text, the bytes filled and the ellipsis flag at loop
exit, or `none` where the source returns an error. `fuel` bounds the number of
rounds; a round fills two bytes of sixteen, so eight rounds suffice. -/
def parseIPv6Loop : Nat → List Char → Nat → Bool → Option (List Char × Nat × Bool)
  | 0, s, i, ellipsis => some (s, i, ellipsis)
  | fuel + 1, s, i, ellipsis =>
    if ¬ i < 16 then some (s, i, ellipsis)
    else
      let digits := s.takeWhile isHexDigit
      let rest := s.dropWhile isHexDigit
      if digits.length > 4 then none
      else if digits.length = 0 then none
      else
        match rest with
        | [] => some ([], i + 2, ellipsis)
        | c :: rest1 =>
          if c = '.' then
            if ¬ ellipsis ∧ i ≠ 12 then none
            else if i + 4 > 16 then none
            else if parseIPv4 s then some ([], i + 4, ellipsis)
            else none
          else if c ≠ ':' then none
          else
            match rest1 with
            | [] => none
            | c1 :: rest2 =>
              if c1 = ':' then
                if ellipsis then none
                else if rest2.isEmpty then some ([], i + 2, true)
                else parseIPv6Loop fuel rest2 (i + 2) true
              else parseIPv6Loop fuel (c1 :: rest2) (i + 2) ellipsis

/-- The checks of Go `parseIPv6` after its loop: the whole text was read, and
the address is complete either by its sixteen bytes or by an ellipsis that
stands for at least one group. -/
def parseIPv6Finish : Option (List Char × Nat × Bool) → Bool
  | none => false
  | some (s, i, ellipsis) =>
    if s.length ≠ 0 then false
    else if i < 16 then ellipsis
    else !ellipsis

/-- Go `parseIPv6` as reached from `net.ParseIP`, which rejects an address
with a zone (`%`): whether the text is an IPv6 address. -/
def parseIPv6 (s : List Char) : Bool :=
  if s.contains '%' then false
  else
    match s with
    | ':' :: ':' :: rest =>
      if rest.isEmpty then true
      else parseIPv6Finish (parseIPv6Loop 8 rest 0 true)
    | _ => parseIPv6Finish (parseIPv6Loop 8 s 0 false)

/-- The dispatch of Go `netip.ParseAddr`: the first of `.`, `:` and `%` in the
text decides between the IPv4 and the IPv6 parser; `whole` is the full text. -/
def parseAddrFrom (whole : List Char) : List Char → Bool
  | [] => false
  | c :: cs =>
    if c = '.' then parseIPv4 whole
    else if c = ':' then parseIPv6 whole
    else if c = '%' then false
    else parseAddrFrom whole cs

/-- Go `net.ParseIP(s) != nil`: whether `s` is the text of an IPv4 address in
dotted decimal or of an IPv6 address (an IPv4-mapped one included). Follows the
current standard library, where an IPv4 octet has no leading zero. -/
def ParseIP (s : String) : Bool := parseAddrFrom s.toList s.toList

end net

namespace handlers

/-- The routing variables of a request (`mux.Vars`), a `map[string]string`. -/
abbrev Vars := List (String × String)

/-- Go map lookup `vars[key]`: the zero value `""` for a missing key. -/
def Vars.get (vars : Vars) (key : String) : String :=
  (vars.lookup key).getD ""

/-- An instance of the registry; the proxy reads its IP only. -/
structure Instance where
  IP : String
deriving DecidableEq, Repr

/-- What the file takes from outside: the two registry lookups of `core` and
the listening port `config.PortNumber`. -/
structure Env where
  InstanceFindByAlias : String → String → Option Instance
  InstanceFindByIP : String → Option Instance
  PortNumber : String

/-- The fields of `url.URL`. -/
structure URL where
  Scheme : String
  Opaque : String
  Host : String
  Path : String
  RawQuery : String
  Fragment : String
deriving DecidableEq, Repr

/-- The fields of `http.Request` the proxy can see; `Vars` stands for the
routing variables its context carries (`mux.Vars(req)`). -/
structure Request where
  Method : String
  URL : URL
  Proto : String
  Header : List (String × String)
  Body : String
  Host : String
  RequestURI : String
  Vars : Vars
deriving DecidableEq, Repr

/-- Lines 21 to 28 of `getTargetInfo`: the port. The second piece of the host
split at `:` when there is one and it differs from `config.PortNumber`;
otherwise the `port` variable, or `"80"` when that is empty. -/
def targetPort (env : Env) (vars : Vars) (req : Request) : String :=
  let port := vars.get "port"
  let hostPort := strings.Split req.Host ':'
  if 1 < hostPort.length ∧ hostPort.getD 1 "" ≠ env.PortNumber then hostPort.getD 1 ""
  else if port = "" then "80"
  else port

/-- Lines 38 to 47 of `getTargetInfo`: the node with its dashes turned into
dots when that parses as an IP address, the node itself otherwise. -/
def targetNode (node : String) : String :=
  let ip := strings.Replace node '-' '.'
  if net.ParseIP ip then ip else node

/-- The function `getTargetInfo`: the (host, port) of the backend. -/
def getTargetInfo (env : Env) (vars : Vars) (req : Request) : String × String :=
  let node := vars.get "node"
  let aliasName := vars.get "alias"
  let session := vars.get "session"
  let port := targetPort env vars req
  if aliasName ≠ "" then
    match env.InstanceFindByAlias session aliasName with
    | some inst => (inst.IP, port)
    | none => (targetNode node, port)
  else (targetNode node, port)

/-- The function literal `director` of `NewTCPProxy`: rewrites the scheme and
the URL host of the request it is given. The source updates the request in
place; here the updated request is the result. -/
def director (env : Env) (req : Request) : Request :=
  let v := req.Vars
  let target := getTargetInfo env v req
  let node := target.1
  let port := target.2
  let req1 : Request :=
    if port = "443" then
      if strings.Contains req.URL.Scheme "http" then
        { req with URL := { req.URL with Scheme := "https" } }
      else
        { req with URL := { req.URL with Scheme := "wss" } }
    else req
  { req1 with URL := { req1.URL with Host := node ++ ":" ++ port } }

/-- The struct `tcpProxy`. `Dial` is `none` for a nil field; a dial function
is represented by whether it returns a connection (no error). `ErrorLog` tells
whether the field is set. -/
structure tcpProxy where
  Director : Request → Request
  ErrorLog : Bool
  Dial : Option (String → String → Bool)

/-- The function `NewTCPProxy`: only `Director` is set. -/
def NewTCPProxy (env : Env) : tcpProxy :=
  { Director := director env, ErrorLog := false, Dial := none }

/-- The two connections of a relay: `d`, dialed to the backend, and `nc`,
taken over from the client. -/
inductive Conn where
  | backend
  | client
deriving DecidableEq, Repr

/-- Which function performs the dial: the field `p.Dial`, `net.Dial`, or
`tls.Dial` with the given `InsecureSkipVerify`. -/
inductive Dialer where
  | custom
  | netDial
  | tlsDial (insecureSkipVerify : Bool)
deriving DecidableEq, Repr

/-- The effects `ServeHTTP` performs, one constructor per call of the source. -/
inductive Effect where
  /-- The call `w.WriteHeader(status)`. -/
  | WriteHeader (status : Nat)
  /-- The call `http.Error(w, msg, code)`. -/
  | Error (msg : String) (code : Nat)
  /-- The call `p.Director(outreq)`. -/
  | Director
  /-- The call `dial(network, address)`; `ok` when it returns a connection. -/
  | Dial (dialer : Dialer) (network address : String) (ok : Bool)
  /-- The call `logFunc(format, ...)`; `custom` when `p.ErrorLog` prints it. -/
  | Log (custom : Bool) (format : String)
  /-- The call `hj.Hijack()`; `ok` when it returns a connection. -/
  | Hijack (ok : Bool)
  /-- The call `outreq.Write(d)`; `ok` when it returns no error. -/
  | Write (dst : Conn) (outreq : Request) (ok : Bool)
  /-- The statement `go cp(dst, src)`. -/
  | Go (dst src : Conn)
  /-- The receive `<-errc`. -/
  | Receive
  /-- The call `c.Close()`. -/
  | Close (c : Conn)
deriving DecidableEq, Repr

/-- What decides the outcome of the effects of one call of `ServeHTTP`. -/
structure World where
  /-- Whether `net.Dial(network, address)` returns a connection. -/
  netDial : String → String → Bool
  /-- Whether `tls.Dial(network, address, config)` returns a connection. -/
  tlsDial : String → String → Bool
  /-- Whether the response writer implements `http.Hijacker`. -/
  hijacker : Bool
  /-- Whether `Hijack()` returns a connection. -/
  hijackOk : Bool
  /-- Whether `outreq.Write(d)` returns no error. -/
  writeOk : Request → Bool
  /-- Whether one of the two copies ever ends, so that `<-errc` returns. -/
  copyEnds : Bool

/-- One call of `ServeHTTP`: the effects in order, and whether the call
returns (it does not when it waits on `errc` for ever). -/
structure Run where
  effects : List Effect
  returned : Bool
deriving DecidableEq, Repr

/-- Lines 77 to 88 of `ServeHTTP`: the dial function chosen for `outreq`. -/
def chooseDialer (p : tcpProxy) (outreq : Request) : Dialer :=
  if outreq.URL.Scheme = "wss" ∨ outreq.URL.Scheme = "https" then Dialer.tlsDial true
  else
    match p.Dial with
    | some _ => Dialer.custom
    | none => Dialer.netDial

/-- Whether the call `dial("tcp", host)` of line 90 returns a connection. -/
def dialOk (p : tcpProxy) (w : World) (outreq : Request) : Bool :=
  if outreq.URL.Scheme = "wss" ∨ outreq.URL.Scheme = "https" then
    w.tlsDial "tcp" outreq.URL.Host
  else
    match p.Dial with
    | some dial => dial "tcp" outreq.URL.Host
    | none => w.netDial "tcp" outreq.URL.Host

/-- The method `tcpProxy.ServeHTTP`. The two `defer`s are registered after a
successful hijack and run, last registered first, when the method returns. -/
def tcpProxy.ServeHTTP (p : tcpProxy) (env : Env) (w : World) (r : Request) : Run :=
  let vars := r.Vars
  let instanceIP := vars.get "node"
  match env.InstanceFindByIP (strings.Replace instanceIP '-' '.') with
  | none => { effects := [Effect.WriteHeader 503], returned := true }
  | some _ =>
    let outreq := p.Director r
    let host := outreq.URL.Host
    let dialed := [Effect.Director, Effect.Dial (chooseDialer p outreq) "tcp" host (dialOk p w outreq)]
    if ¬ dialOk p w outreq then
      { effects := dialed ++
          [Effect.Error "Error forwarding request." 500,
           Effect.Log p.ErrorLog "Error dialing websocket backend %s: %v"],
        returned := true }
    else if ¬ w.hijacker then
      { effects := dialed ++ [Effect.Error "Not a hijacker?" 500], returned := true }
    else if ¬ w.hijackOk then
      { effects := dialed ++ [Effect.Hijack false, Effect.Log p.ErrorLog "Hijack error: %v"],
        returned := true }
    else
      let deferred := [Effect.Close Conn.backend, Effect.Close Conn.client]
      if ¬ w.writeOk outreq then
        { effects := dialed ++
            [Effect.Hijack true, Effect.Write Conn.backend outreq false,
             Effect.Log p.ErrorLog "Error copying request to target: %v"] ++ deferred,
          returned := true }
      else if w.copyEnds then
        { effects := dialed ++
            [Effect.Hijack true, Effect.Write Conn.backend outreq true,
             Effect.Go Conn.backend Conn.client, Effect.Go Conn.client Conn.backend,
             Effect.Receive] ++ deferred,
          returned := true }
      else
        { effects := dialed ++
            [Effect.Hijack true, Effect.Write Conn.backend outreq true,
             Effect.Go Conn.backend Conn.client, Effect.Go Conn.client Conn.backend],
          returned := false }

/-- The connections open after an effect, given those open before it: a
successful dial opens `d`, a successful hijack hands over `nc`, `Close` closes. -/
def openAfter (conns : List Conn) : Effect → List Conn
  | Effect.Dial _ _ _ true => conns ++ [Conn.backend]
  | Effect.Hijack true => conns ++ [Conn.client]
  | Effect.Close c => conns.erase c
  | _ => conns

/-- The connections still open after a sequence of effects. -/
def openConns (effects : List Effect) : List Conn :=
  effects.foldl openAfter []

/-- The dials among a sequence of effects: dialer, network and address. -/
def dialAttempts : List Effect → List (Dialer × String × String)
  | [] => []
  | Effect.Dial dialer network address _ :: rest =>
    (dialer, network, address) :: dialAttempts rest
  | _ :: rest => dialAttempts rest

/-- The port of a host header value `host[:port]`, in the sense of Go's
`URL.Port`: the text after the last colon when it is made of digits only;
`none` when there is no colon or that text is not numeric. -/
def hostHeaderPort (host : String) : Option String :=
  let rev := host.toList.reverse
  let portRev := rev.takeWhile fun c => c ≠ ':'
  if rev.contains ':' ∧ portRev.all net.isDigit then some (String.mk portRev.reverse)
  else none

/-- The port as the specification words it: the explicit (non-empty) port of
the host header when it differs from the listening port; otherwise the `port`
variable, or `"80"` when that is empty. -/
def specPort (env : Env) (vars : Vars) (req : Request) : String :=
  let fallback := if vars.get "port" = "" then "80" else vars.get "port"
  match hostHeaderPort req.Host with
  | some port => if port ≠ "" ∧ port ≠ env.PortNumber then port else fallback
  | none => fallback

/-- The host of step 3 as the specification words it: the node with dashes
replaced by dots when that is a valid IPv4 address, the node verbatim
otherwise. -/
def specNodeHost (node : String) : String :=
  if net.parseIPv4 (strings.Replace node '-' '.').toList then strings.Replace node '-' '.'
  else node

/-- The number a port text denotes, as the specification's "numeric port" and
as a dial of `host:port` reads it: the decimal value of a non-empty run of
digits, `none` for any other text. -/
def portNumber (port : String) : Option Nat :=
  if port.toList ≠ [] ∧ port.toList.all net.isDigit = true then
    some (port.toList.foldl (fun n c => n * 10 + (c.toNat - '0'.toNat)) 0)
  else none

/-- A request with the given host header, URL scheme and routing variables. -/
def mkRequest (host scheme : String) (vars : Vars) : Request :=
  { Method := "GET",
    URL := { Scheme := scheme, Opaque := "", Host := "", Path := "/", RawQuery := "",
             Fragment := "" },
    Proto := "HTTP/1.1", Header := [("Host", host)], Body := "", Host := host,
    RequestURI := "/", Vars := vars }

/-- A registry with two instances, `10.0.0.5` and `10.0.0.9`, the second one
known as `web` in session `s1`; the proxy listens on port 80. -/
def sampleEnv : Env :=
  { InstanceFindByAlias := fun session aliasName =>
      if session = "s1" ∧ aliasName = "web" then some { IP := "10.0.0.9" } else none,
    InstanceFindByIP := fun ip =>
      if ip = "10.0.0.5" then some { IP := "10.0.0.5" }
      else if ip = "10.0.0.9" then some { IP := "10.0.0.9" }
      else none,
    PortNumber := "80" }

/-- A world in which every effect succeeds and the relay ends. -/
def happyWorld : World :=
  { netDial := fun _ _ => true, tlsDial := fun _ _ => true, hijacker := true,
    hijackOk := true, writeOk := fun _ => true, copyEnds := true }

/-- A world in which the dial succeeds and the response writer is no
`http.Hijacker` (as for a request served over HTTP/2). -/
def noHijackerWorld : World := { happyWorld with hijacker := false }

/-- A world in which the dial succeeds and `Hijack()` returns an error. -/
def hijackErrorWorld : World := { happyWorld with hijackOk := false }

/-- A world in which no dial returns a connection. -/
def dialFailWorld : World :=
  { happyWorld with netDial := fun _ _ => false, tlsDial := fun _ _ => false }

end handlers

open handlers

/-! ## Library facts -/

theorem strings.Replace_eq_empty (s : String) (old new : Char) :
    strings.Replace s old new = "" ↔ s = "" := by
  cases s with
  | mk cs =>
    cases cs with
    | nil => simp [strings.Replace]
    | cons c cs =>
      constructor
      · intro h
        have h1 := congrArg String.data h
        simp [strings.Replace] at h1
      · intro h
        have h1 := congrArg String.data h
        simp at h1

theorem strings.containsChars_iff (pat cs : List Char) :
    strings.containsChars pat cs = true ↔ pat <:+: cs := by
  induction cs with
  | nil =>
    cases pat <;> simp [strings.containsChars]
  | cons c cs ih =>
    rw [strings.containsChars, Bool.or_eq_true, ih, List.isPrefixOf_iff_prefix,
      List.infix_cons_iff]

/-! ## Target resolution -/

theorem handlers.getTargetInfo_snd (env : Env) (vars : Vars) (req : Request) :
    (getTargetInfo env vars req).2 = targetPort env vars req := by
  unfold getTargetInfo
  dsimp only
  split
  · split <;> rfl
  · rfl

theorem handlers.getTargetInfo_no_alias (env : Env) (vars : Vars) (req : Request)
    (h : vars.get "alias" = "" ∨
      env.InstanceFindByAlias (vars.get "session") (vars.get "alias") = none) :
    getTargetInfo env vars req = (targetNode (vars.get "node"), targetPort env vars req) := by
  unfold getTargetInfo
  dsimp only
  split
  · rename_i hne
    rcases h with h | h
    · exact absurd h hne
    · rw [h]
  · rfl

theorem handlers.getTargetInfo_alias (env : Env) (vars : Vars) (req : Request)
    (inst : Instance) (ha : vars.get "alias" ≠ "")
    (hf : env.InstanceFindByAlias (vars.get "session") (vars.get "alias") = some inst) :
    getTargetInfo env vars req = (inst.IP, targetPort env vars req) := by
  unfold getTargetInfo
  dsimp only
  rw [if_pos ha, hf]

theorem handlers.targetNode_eq_empty (node : String) :
    targetNode node = "" ↔ node = "" := by
  unfold targetNode
  dsimp only
  split
  · exact strings.Replace_eq_empty _ _ _
  · exact Iff.rfl

theorem strings.splitChars_of_not_mem (sep : Char) (cs : List Char) (h : sep ∉ cs) :
    strings.splitChars sep cs = [cs] := by
  induction cs with
  | nil => rfl
  | cons c cs ih =>
    have hc : c ≠ sep := fun e => h (e ▸ List.mem_cons_self c cs)
    have ht : sep ∉ cs := fun e => h (List.mem_cons_of_mem c e)
    rw [strings.splitChars, if_neg hc, ih ht]

theorem strings.splitChars_append (sep : Char) (name rest : List Char) (h : sep ∉ name) :
    strings.splitChars sep (name ++ sep :: rest) = name :: strings.splitChars sep rest := by
  induction name with
  | nil => simp [strings.splitChars]
  | cons c cs ih =>
    have hc : c ≠ sep := fun e => h (e ▸ List.mem_cons_self c cs)
    have ht : sep ∉ cs := fun e => h (List.mem_cons_of_mem c e)
    rw [List.cons_append, strings.splitChars, if_neg hc, ih ht]

theorem strings.Split_plain (name : List Char) (h : ':' ∉ name) :
    strings.Split (String.mk name) ':' = [String.mk name] := by
  unfold strings.Split
  rw [show (String.mk name).toList = name from rfl, strings.splitChars_of_not_mem _ _ h]
  rfl

theorem strings.Split_host_port (name port : List Char) (hn : ':' ∉ name) (hp : ':' ∉ port) :
    strings.Split (String.mk (name ++ ':' :: port)) ':' = [String.mk name, String.mk port] := by
  unfold strings.Split
  rw [show (String.mk (name ++ ':' :: port)).toList = name ++ ':' :: port from rfl,
    strings.splitChars_append _ _ _ hn, strings.splitChars_of_not_mem _ _ hp]
  rfl

/-! ## IP parsing -/

theorem net.isDigit_ne_special (c : Char) (h : net.isDigit c = true) :
    c ≠ '.' ∧ c ≠ ':' ∧ c ≠ '%' := by
  refine ⟨?_, ?_, ?_⟩ <;> (intro hc; subst hc; revert h; decide)

theorem net.parseIPv4Fields_chars (cs : List Char) :
    ∀ (first prevDot : Bool) (val pos digLen : Nat),
      net.parseIPv4Fields cs first prevDot val pos digLen = true →
      (∀ c ∈ cs, net.isDigit c = true ∨ c = '.') ∧ 3 ≤ pos + cs.count '.' := by
  induction cs with
  | nil =>
    intro first prevDot val pos digLen h
    simp [net.parseIPv4Fields] at h
    simp
    omega
  | cons c cs ih =>
    intro first prevDot val pos digLen h
    rw [net.parseIPv4Fields] at h
    by_cases hd : net.isDigit c = true
    · rw [if_pos hd] at h
      split at h
      · exact absurd h (by simp)
      · split at h
        · exact absurd h (by simp)
        · obtain ⟨h1, h2⟩ := ih _ _ _ _ _ h
          have hne := (net.isDigit_ne_special c hd).1
          refine ⟨?_, ?_⟩
          · intro x hx
            rcases List.mem_cons.mp hx with hx | hx
            · exact Or.inl (hx ▸ hd)
            · exact h1 x hx
          · rw [List.count_cons_of_ne (Ne.symm hne)]
            exact h2
    · rw [if_neg hd] at h
      by_cases hdot : c = '.'
      · rw [if_pos hdot] at h
        split at h
        · exact absurd h (by simp)
        · split at h
          · exact absurd h (by simp)
          · obtain ⟨h1, h2⟩ := ih _ _ _ _ _ h
            refine ⟨?_, ?_⟩
            · intro x hx
              rcases List.mem_cons.mp hx with hx | hx
              · exact Or.inr (hx ▸ hdot)
              · exact h1 x hx
            · rw [hdot, List.count_cons_self]
              omega
      · rw [if_neg hdot] at h
        exact absurd h (by simp)

theorem net.parseAddrFrom_dotted (whole cs : List Char)
    (hchars : ∀ c ∈ cs, net.isDigit c = true ∨ c = '.') (hdot : '.' ∈ cs) :
    net.parseAddrFrom whole cs = net.parseIPv4 whole := by
  induction cs with
  | nil => simp at hdot
  | cons c cs ih =>
    rw [net.parseAddrFrom]
    by_cases hc : c = '.'
    · rw [if_pos hc]
    · rw [if_neg hc]
      have hd : net.isDigit c = true := by
        rcases hchars c (List.mem_cons_self c cs) with h | h
        · exact h
        · exact absurd h hc
      obtain ⟨_, h2, h3⟩ := net.isDigit_ne_special c hd
      rw [if_neg h2, if_neg h3]
      apply ih
      · intro x hx
        exact hchars x (List.mem_cons_of_mem c hx)
      · rcases List.mem_cons.mp hdot with h | h
        · exact absurd h.symm hc
        · exact h

theorem net.ParseIP_of_parseIPv4 (s : String) (h : net.parseIPv4 s.toList = true) :
    net.ParseIP s = true := by
  obtain ⟨h1, h2⟩ := net.parseIPv4Fields_chars s.toList true false 0 0 0 h
  have hdot : '.' ∈ s.toList := by
    apply List.count_pos_iff.mp
    omega
  unfold net.ParseIP
  rw [net.parseAddrFrom_dotted s.toList s.toList h1 hdot]
  exact h

/-! ## The port selection on host headers of the form `name` and `name:port` -/

theorem handlers.hostHeaderPort_plain (name : List Char) (h : ':' ∉ name) :
    hostHeaderPort (String.mk name) = none := by
  unfold hostHeaderPort
  have hc : (String.mk name).toList.reverse.contains ':' = false := by
    rw [show (String.mk name).toList = name from rfl]
    simpa using h
  dsimp only
  rw [hc]
  simp

theorem handlers.hostHeaderPort_host_port (name port : List Char)
    (hp : ∀ c ∈ port, net.isDigit c = true) :
    hostHeaderPort (String.mk (name ++ ':' :: port)) = some (String.mk port) := by
  have hcolon : ':' ∉ port := fun h => (net.isDigit_ne_special _ (hp _ h)).2.1 rfl
  have htake : ((name ++ ':' :: port).reverse.takeWhile fun c => decide (c ≠ ':'))
      = port.reverse := by
    rw [List.reverse_append, List.reverse_cons, List.append_assoc,
      List.takeWhile_append_of_pos]
    · simp
    · intro c hc
      have : c ≠ ':' := fun e => hcolon (e ▸ List.mem_reverse.mp hc)
      simpa using this
  unfold hostHeaderPort
  dsimp only
  rw [show (String.mk (name ++ ':' :: port)).toList = name ++ ':' :: port from rfl, htake]
  have hall : port.reverse.all net.isDigit = true := by
    simpa using hp
  have hmem : (name ++ ':' :: port).reverse.contains ':' = true := by simp
  rw [if_pos ⟨hmem, hall⟩, List.reverse_reverse]

/-- On a host header without a colon the port of `getTargetInfo` is the one the
specification names. -/
theorem handlers.targetPort_plain_host (env : Env) (vars : Vars) (req : Request)
    (name : List Char) (hn : ':' ∉ name) (hh : req.Host = String.mk name) :
    targetPort env vars req = specPort env vars req := by
  unfold targetPort specPort
  dsimp only
  rw [hh, strings.Split_plain name hn, handlers.hostHeaderPort_plain name hn]
  simp

/-- On a host header `name:port` with a non-empty numeric port and no colon in
the name, the port of `getTargetInfo` is the one the specification names. -/
theorem handlers.targetPort_host_with_port (env : Env) (vars : Vars) (req : Request)
    (name port : List Char) (hn : ':' ∉ name) (hp : ∀ c ∈ port, net.isDigit c = true)
    (hne : port ≠ []) (hh : req.Host = String.mk (name ++ ':' :: port)) :
    targetPort env vars req = specPort env vars req := by
  have hcolon : ':' ∉ port := fun h => (net.isDigit_ne_special _ (hp _ h)).2.1 rfl
  have hne2 : String.mk port ≠ "" := fun h => hne (congrArg String.data h)
  unfold targetPort specPort
  dsimp only
  rw [hh, strings.Split_host_port name port hn hcolon,
    handlers.hostHeaderPort_host_port name port hp]
  simp [hne2]

/-! ## The director and the handler: auxiliary facts -/

theorem handlers.director_URL_Host (env : Env) (req : Request) :
    (director env req).URL.Host =
      (getTargetInfo env req.Vars req).1 ++ ":" ++ (getTargetInfo env req.Vars req).2 := by
  unfold director
  dsimp only

theorem handlers.director_URL_Scheme (env : Env) (req : Request) :
    (director env req).URL.Scheme =
      if (getTargetInfo env req.Vars req).2 = "443" then
        if strings.Contains req.URL.Scheme "http" = true then "https" else "wss"
      else req.URL.Scheme := by
  unfold director
  dsimp only
  split
  · split <;> rfl
  · rfl

theorem handlers.director_tls_iff (env : Env) (req : Request) :
    ((director env req).URL.Scheme = "wss" ∨ (director env req).URL.Scheme = "https") ↔
      ((getTargetInfo env req.Vars req).2 = "443" ∨ req.URL.Scheme = "wss" ∨
        req.URL.Scheme = "https") := by
  rw [handlers.director_URL_Scheme]
  by_cases hp : (getTargetInfo env req.Vars req).2 = "443"
  · by_cases hs : strings.Contains req.URL.Scheme "http" = true
    · simp [hp, hs]
    · simp [hp, hs]
  · simp [hp]

theorem handlers.ServeHTTP_dialAttempts (p : tcpProxy) (env : Env) (w : World) (r : Request)
    (hgate : env.InstanceFindByIP (strings.Replace (r.Vars.get "node") '-' '.') ≠ none) :
    dialAttempts (p.ServeHTTP env w r).effects =
      [(chooseDialer p (p.Director r), "tcp", (p.Director r).URL.Host)] := by
  unfold tcpProxy.ServeHTTP
  dsimp only
  cases hf : env.InstanceFindByIP (strings.Replace (r.Vars.get "node") '-' '.') with
  | none => exact absurd hf hgate
  | some inst =>
    dsimp only
    split
    · simp [dialAttempts]
    · split
      · simp [dialAttempts]
      · split
        · simp [dialAttempts]
        · split
          · simp [dialAttempts]
          · split <;> simp [dialAttempts]

theorem handlers.ServeHTTP_openConns (p : tcpProxy) (env : Env) (w : World) (r : Request)
    (hret : (p.ServeHTTP env w r).returned = true) :
    openConns (p.ServeHTTP env w r).effects =
      if env.InstanceFindByIP (strings.Replace (r.Vars.get "node") '-' '.') ≠ none ∧
          dialOk p w (p.Director r) = true ∧ ¬ (w.hijacker = true ∧ w.hijackOk = true)
      then [Conn.backend] else [] := by
  unfold tcpProxy.ServeHTTP at hret ⊢
  dsimp only at hret ⊢
  cases hf : env.InstanceFindByIP (strings.Replace (r.Vars.get "node") '-' '.') with
  | none => simp [openConns, openAfter]
  | some inst =>
    rw [hf] at hret
    dsimp only at hret ⊢
    by_cases hd : dialOk p w (p.Director r) = true
    · by_cases hh : w.hijacker = true
      · by_cases hk : w.hijackOk = true
        · by_cases hw : w.writeOk (p.Director r) = true
          · by_cases hc : w.copyEnds = true
            · simp [hd, hh, hk, hw, hc, openConns, openAfter]
            · simp [hd, hh, hk, hw, hc] at hret
          · simp [hd, hh, hk, hw, openConns, openAfter]
        · simp [hd, hh, hk, openConns, openAfter]
      · simp [hd, hh, openConns, openAfter]
    · simp [hd, openConns, openAfter]

/-! ## Claims on `getTargetInfo` and the director -/

/-- C1, evaluated where the code departs from it: for the host header
`[::1]:8080` (an IPv6 literal with port 8080) on a proxy listening on port 80,
the port of the host header is `8080`, which the claim says is returned, while
`getTargetInfo` returns the empty port: the second piece of the split at `:`,
not the `port` variable `9000` either, nor `80`. -/
theorem getTargetInfo_port_bracketed_host :
    strings.Split "[::1]:8080" ':' = ["[", "", "1]", "8080"] ∧
    hostHeaderPort "[::1]:8080" = some "8080" ∧
    specPort sampleEnv [("node", "10-0-0-5"), ("port", "9000")]
      (mkRequest "[::1]:8080" "" []) = "8080" ∧
    (getTargetInfo sampleEnv [("node", "10-0-0-5"), ("port", "9000")]
      (mkRequest "[::1]:8080" "" [])).2 = "" := by
  decide

/-- C2: when the `alias` variable is non-empty and the lookup by (session,
alias) finds an instance, `getTargetInfo` returns that instance's IP as host,
for every value of `node`, and its port is the one of the port selection: the
same port it returns when the alias lookup finds nothing. -/
theorem getTargetInfo_alias_precedence (env : Env) (vars : Vars) (req : Request)
    (inst : Instance) (ha : vars.get "alias" ≠ "")
    (hf : env.InstanceFindByAlias (vars.get "session") (vars.get "alias") = some inst) :
    (getTargetInfo env vars req).1 = inst.IP ∧
    (getTargetInfo env vars req).2 = targetPort env vars req ∧
    (getTargetInfo env vars req).2 =
      (getTargetInfo { env with InstanceFindByAlias := fun _ _ => none } vars req).2 := by
  rw [handlers.getTargetInfo_alias env vars req inst ha hf]
  refine ⟨rfl, rfl, ?_⟩
  rw [handlers.getTargetInfo_snd]
  rfl

theorem getTargetInfo_alias_precedence_witness :
    (getTargetInfo sampleEnv [("node", "10-0-0-5"), ("alias", "web"), ("session", "s1")]
      (mkRequest "example.com" "" [])).1 = "10.0.0.9" ∧
    (getTargetInfo sampleEnv [("node", "10-0-0-5"), ("alias", "web"), ("session", "s1")]
      (mkRequest "example.com" "" [])).2 = "80" :=
  have h := getTargetInfo_alias_precedence sampleEnv
    [("node", "10-0-0-5"), ("alias", "web"), ("session", "s1")]
    (mkRequest "example.com" "" []) { IP := "10.0.0.9" } (by decide) (by decide)
  ⟨h.1, h.2.1.trans (by decide)⟩

/-- C3 fails as stated: with no alias, the node `::ffff:10-0-0-5` becomes
`::ffff:10.0.0.5` once its dashes are dots, which is not an IPv4 address in
dotted decimal but which `net.ParseIP` accepts (an IPv6 address); the host
returned is that string and not the node verbatim. -/
theorem getTargetInfo_node_ipv6_counterexample :
    Vars.get [("node", "::ffff:10-0-0-5")] "alias" = "" ∧
    net.parseIPv4 (strings.Replace "::ffff:10-0-0-5" '-' '.').toList = false ∧
    specNodeHost "::ffff:10-0-0-5" = "::ffff:10-0-0-5" ∧
    (getTargetInfo sampleEnv [("node", "::ffff:10-0-0-5")]
      (mkRequest "example.com" "" [])).1 = "::ffff:10.0.0.5" ∧
    (getTargetInfo sampleEnv [("node", "::ffff:10-0-0-5")]
      (mkRequest "example.com" "" [])).1 ≠ specNodeHost "::ffff:10-0-0-5" := by
  decide

/-- C3, amended: when the alias is absent or its lookup finds no instance, the
host is the node with every dash replaced by a dot if that string parses as an
IP address for `net.ParseIP`, which every valid IPv4 address in dotted decimal
does and IPv6 addresses do too, and the node verbatim otherwise. -/
theorem getTargetInfo_node_normalisation (env : Env) (vars : Vars) (req : Request)
    (h : vars.get "alias" = "" ∨
      env.InstanceFindByAlias (vars.get "session") (vars.get "alias") = none) :
    (net.parseIPv4 (strings.Replace (vars.get "node") '-' '.').toList = true →
      (getTargetInfo env vars req).1 = strings.Replace (vars.get "node") '-' '.') ∧
    (net.ParseIP (strings.Replace (vars.get "node") '-' '.') = true →
      (getTargetInfo env vars req).1 = strings.Replace (vars.get "node") '-' '.') ∧
    (net.ParseIP (strings.Replace (vars.get "node") '-' '.') = false →
      (getTargetInfo env vars req).1 = vars.get "node") := by
  rw [handlers.getTargetInfo_no_alias env vars req h]
  have key : ∀ hp : net.ParseIP (strings.Replace (vars.get "node") '-' '.') = true,
      targetNode (vars.get "node") = strings.Replace (vars.get "node") '-' '.' := by
    intro hp
    unfold targetNode
    simp [hp]
  refine ⟨fun h4 => key (net.ParseIP_of_parseIPv4 _ h4), key, ?_⟩
  intro hp
  unfold targetNode
  simp [hp]

theorem getTargetInfo_node_normalisation_witness :
    (getTargetInfo sampleEnv [("node", "10-0-0-5")] (mkRequest "example.com" "" [])).1
        = "10.0.0.5" ∧
    (getTargetInfo sampleEnv [("node", "myhost"), ("alias", "db"), ("session", "s1")]
        (mkRequest "example.com" "" [])).1 = "myhost" ∧
    (getTargetInfo sampleEnv [("node", "my-host")] (mkRequest "example.com" "" [])).1
        = "my-host" :=
  ⟨(getTargetInfo_node_normalisation sampleEnv [("node", "10-0-0-5")]
      (mkRequest "example.com" "" []) (Or.inl (by decide))).1 (by decide),
   (getTargetInfo_node_normalisation sampleEnv
      [("node", "myhost"), ("alias", "db"), ("session", "s1")]
      (mkRequest "example.com" "" []) (Or.inr (by decide))).2.2 (by decide),
   (getTargetInfo_node_normalisation sampleEnv [("node", "my-host")]
      (mkRequest "example.com" "" []) (Or.inl (by decide))).2.2 (by decide)⟩

/-- C9 fails as stated: for the empty map of routing variables the host
returned is the empty string. -/
theorem getTargetInfo_empty_host_counterexample :
    (getTargetInfo sampleEnv [] (mkRequest "example.com" "" [])).1 = "" := by
  decide

/-- C9, amended: `getTargetInfo` returns a (host, port) pair for every map and
request, with no error path, and its host is the empty string in two cases
only: the alias lookup finds an instance whose IP is empty, or no instance is
found by alias (the alias is empty or its lookup finds none) and the `node`
variable is empty. In every other case the host is not empty, whatever `node`
is when the alias matches. -/
theorem getTargetInfo_host_nonempty (env : Env) (vars : Vars) (req : Request) :
    ∃ host port, getTargetInfo env vars req = (host, port) ∧
      (host = "" ↔
        (vars.get "alias" ≠ "" ∧
          ∃ inst, env.InstanceFindByAlias (vars.get "session") (vars.get "alias")
            = some inst ∧ inst.IP = "") ∨
        ((vars.get "alias" = "" ∨
            env.InstanceFindByAlias (vars.get "session") (vars.get "alias") = none) ∧
          vars.get "node" = "")) := by
  refine ⟨(getTargetInfo env vars req).1, (getTargetInfo env vars req).2, rfl, ?_⟩
  have hnodeHost : targetNode (vars.get "node") = "" ↔ vars.get "node" = "" :=
    handlers.targetNode_eq_empty _
  by_cases ha : vars.get "alias" = ""
  · rw [handlers.getTargetInfo_no_alias env vars req (Or.inl ha)]
    constructor
    · intro h
      exact Or.inr ⟨Or.inl ha, hnodeHost.mp h⟩
    · rintro (⟨hne, _⟩ | ⟨_, hn⟩)
      · exact absurd ha hne
      · exact hnodeHost.mpr hn
  · cases hf : env.InstanceFindByAlias (vars.get "session") (vars.get "alias") with
    | none =>
      rw [handlers.getTargetInfo_no_alias env vars req (Or.inr hf)]
      constructor
      · intro h
        exact Or.inr ⟨Or.inr rfl, hnodeHost.mp h⟩
      · rintro (⟨_, inst, hsome, _⟩ | ⟨_, hn⟩)
        · cases hsome
        · exact hnodeHost.mpr hn
    | some inst =>
      rw [handlers.getTargetInfo_alias env vars req inst ha hf]
      constructor
      · intro h
        exact Or.inl ⟨ha, inst, rfl, h⟩
      · rintro (⟨_, inst2, hsome, hip⟩ | ⟨hno, _⟩)
        · cases hsome
          exact hip
        · rcases hno with h | h
          · exact absurd h ha
          · cases h

theorem getTargetInfo_host_nonempty_witness :
    (getTargetInfo sampleEnv [("alias", "web"), ("session", "s1")]
      (mkRequest "example.com:8080" "" [])).1 = "10.0.0.9" ∧
    (getTargetInfo sampleEnv [("alias", "web"), ("session", "s1")]
      (mkRequest "example.com:8080" "" [])).1 ≠ "" ∧
    (getTargetInfo sampleEnv [("node", "10-0-0-5")]
      (mkRequest "example.com:8080" "" [])).1 ≠ "" := by
  refine ⟨by decide, ?_, ?_⟩
  · obtain ⟨host, port, hpair, hiff⟩ := getTargetInfo_host_nonempty sampleEnv
      [("alias", "web"), ("session", "s1")] (mkRequest "example.com:8080" "" [])
    rw [hpair]
    intro he
    have hfound : sampleEnv.InstanceFindByAlias
        (Vars.get [("alias", "web"), ("session", "s1")] "session")
        (Vars.get [("alias", "web"), ("session", "s1")] "alias")
        = some { IP := "10.0.0.9" } := by decide
    rcases hiff.mp he with ⟨_, inst, hsome, hip⟩ | ⟨hno, _⟩
    · rw [hfound] at hsome
      cases hsome
      revert hip
      decide
    · rcases hno with h | h
      · revert h
        decide
      · rw [hfound] at h
        cases h
  · obtain ⟨host, port, hpair, hiff⟩ := getTargetInfo_host_nonempty sampleEnv
      [("node", "10-0-0-5")] (mkRequest "example.com:8080" "" [])
    rw [hpair]
    intro he
    rcases hiff.mp he with ⟨hne, _⟩ | ⟨_, hn⟩
    · revert hne
      decide
    · revert hn
      decide

/-- C4 fails as stated when the port equal to 443 is read as a number: for the
host header `example.com:0443` the resolved port is the text `0443`, which
denotes the number 443 and is dialed as such, and the director leaves the
scheme `http` as it is. -/
theorem director_port_0443_counterexample :
    getTargetInfo sampleEnv [("node", "10-0-0-5")]
      (mkRequest "example.com:0443" "http" [("node", "10-0-0-5")]) = ("10.0.0.5", "0443") ∧
    portNumber "0443" = some 443 ∧
    portNumber "443" = some 443 ∧
    ((NewTCPProxy sampleEnv).Director
      (mkRequest "example.com:0443" "http" [("node", "10-0-0-5")])).URL.Scheme = "http" ∧
    ((NewTCPProxy sampleEnv).Director
      (mkRequest "example.com:0443" "http" [("node", "10-0-0-5")])).URL.Host
      = "10.0.0.5:0443" := by
  decide

/-- C4, amended: the director built by `NewTCPProxy` sets the URL host of the
request to `host:port`, with (host, port) the result of `getTargetInfo`; when
the port is the text `443`, character for character, the scheme becomes `https`
if the original scheme contains `http` and `wss` otherwise; when the port is
any other text, one that denotes the number 443 such as `0443` included, the
scheme is unchanged; every other field of the request is as it was. -/
theorem director_rewrite (env : Env) (req : Request) :
    ((NewTCPProxy env).Director req).URL.Host =
      (getTargetInfo env req.Vars req).1 ++ ":" ++ (getTargetInfo env req.Vars req).2 ∧
    ((getTargetInfo env req.Vars req).2 = "443" →
      "http".toList <:+: req.URL.Scheme.toList →
      ((NewTCPProxy env).Director req).URL.Scheme = "https") ∧
    ((getTargetInfo env req.Vars req).2 = "443" →
      ¬ "http".toList <:+: req.URL.Scheme.toList →
      ((NewTCPProxy env).Director req).URL.Scheme = "wss") ∧
    ((getTargetInfo env req.Vars req).2 ≠ "443" →
      ((NewTCPProxy env).Director req).URL.Scheme = req.URL.Scheme) ∧
    (NewTCPProxy env).Director req =
      { req with URL := { req.URL with
          Scheme := ((NewTCPProxy env).Director req).URL.Scheme,
          Host := ((NewTCPProxy env).Director req).URL.Host } } := by
  have hc : strings.Contains req.URL.Scheme "http" = true ↔
      "http".toList <:+: req.URL.Scheme.toList := strings.containsChars_iff _ _
  have hdir : (NewTCPProxy env).Director = director env := rfl
  rw [hdir]
  unfold director
  dsimp only
  by_cases hp : (getTargetInfo env req.Vars req).2 = "443"
  · by_cases hs : strings.Contains req.URL.Scheme "http" = true
    · simp [hp, hs]
      exact hc.mp hs
    · simp [hp, hs]
      exact fun h => hs (hc.mpr h)
  · simp [hp]

theorem director_rewrite_witness :
    ((NewTCPProxy sampleEnv).Director
      (mkRequest "example.com:443" "http" [("node", "10-0-0-5")])).URL.Host
      = "10.0.0.5:443" ∧
    ((NewTCPProxy sampleEnv).Director
      (mkRequest "example.com:443" "http" [("node", "10-0-0-5")])).URL.Scheme = "https" ∧
    ((NewTCPProxy sampleEnv).Director
      (mkRequest "example.com:443" "ws" [("node", "10-0-0-5")])).URL.Scheme = "wss" ∧
    ((NewTCPProxy sampleEnv).Director
      (mkRequest "example.com:8443" "ws" [("node", "10-0-0-5")])).URL.Scheme = "ws" :=
  ⟨(director_rewrite sampleEnv
      (mkRequest "example.com:443" "http" [("node", "10-0-0-5")])).1.trans (by decide),
   (director_rewrite sampleEnv
      (mkRequest "example.com:443" "http" [("node", "10-0-0-5")])).2.1 (by decide)
      (by decide),
   (director_rewrite sampleEnv
      (mkRequest "example.com:443" "ws" [("node", "10-0-0-5")])).2.2.1 (by decide)
      (by decide),
   (director_rewrite sampleEnv
      (mkRequest "example.com:8443" "ws" [("node", "10-0-0-5")])).2.2.2.1 (by decide)⟩

/-! ## Claims on `ServeHTTP` -/

/-- C5: when the `node` variable, dashes replaced by dots, matches no instance
in the lookup by IP, `ServeHTTP` writes status 503 and returns, and that is all
it does: the director is not invoked, no dial is attempted, the connection is
not hijacked. -/
theorem ServeHTTP_unknown_node (p : tcpProxy) (env : Env) (w : World) (r : Request)
    (h : env.InstanceFindByIP (strings.Replace (r.Vars.get "node") '-' '.') = none) :
    p.ServeHTTP env w r = { effects := [Effect.WriteHeader 503], returned := true } ∧
    Effect.Director ∉ (p.ServeHTTP env w r).effects ∧
    dialAttempts (p.ServeHTTP env w r).effects = [] ∧
    ∀ ok, Effect.Hijack ok ∉ (p.ServeHTTP env w r).effects := by
  have hrun : p.ServeHTTP env w r =
      { effects := [Effect.WriteHeader 503], returned := true } := by
    unfold tcpProxy.ServeHTTP
    dsimp only
    rw [h]
  rw [hrun]
  simp [dialAttempts]

theorem ServeHTTP_unknown_node_witness :
    (NewTCPProxy sampleEnv).ServeHTTP sampleEnv happyWorld
      (mkRequest "example.com" "" [("node", "10-0-0-7")])
      = { effects := [Effect.WriteHeader 503], returned := true } :=
  (ServeHTTP_unknown_node (NewTCPProxy sampleEnv) sampleEnv happyWorld
    (mkRequest "example.com" "" [("node", "10-0-0-7")]) (by decide)).1

/-- C6: when the liveness gate is passed and the backend dial returns an error,
`ServeHTTP` answers with status 500, logs the error and returns; `Hijack` is
never called and nothing is written to a backend. -/
theorem ServeHTTP_dial_failure (p : tcpProxy) (env : Env) (w : World) (r : Request)
    (hgate : env.InstanceFindByIP (strings.Replace (r.Vars.get "node") '-' '.') ≠ none)
    (hdial : dialOk p w (p.Director r) = false) :
    (p.ServeHTTP env w r).effects =
      [Effect.Director,
       Effect.Dial (chooseDialer p (p.Director r)) "tcp" (p.Director r).URL.Host false,
       Effect.Error "Error forwarding request." 500,
       Effect.Log p.ErrorLog "Error dialing websocket backend %s: %v"] ∧
    (p.ServeHTTP env w r).returned = true ∧
    (∀ ok, Effect.Hijack ok ∉ (p.ServeHTTP env w r).effects) ∧
    (∀ dst outreq ok, Effect.Write dst outreq ok ∉ (p.ServeHTTP env w r).effects) ∧
    openConns (p.ServeHTTP env w r).effects = [] := by
  have hrun : p.ServeHTTP env w r =
      { effects :=
          [Effect.Director,
           Effect.Dial (chooseDialer p (p.Director r)) "tcp" (p.Director r).URL.Host false,
           Effect.Error "Error forwarding request." 500,
           Effect.Log p.ErrorLog "Error dialing websocket backend %s: %v"],
        returned := true } := by
    unfold tcpProxy.ServeHTTP
    dsimp only
    cases hf : env.InstanceFindByIP (strings.Replace (r.Vars.get "node") '-' '.') with
    | none => exact absurd hf hgate
    | some inst => simp [hdial]
  rw [hrun]
  simp [openConns, openAfter]

theorem ServeHTTP_dial_failure_witness :
    ((NewTCPProxy sampleEnv).ServeHTTP sampleEnv dialFailWorld
      (mkRequest "example.com" "" [("node", "10-0-0-5")])).effects =
      [Effect.Director, Effect.Dial Dialer.netDial "tcp" "10.0.0.5:80" false,
       Effect.Error "Error forwarding request." 500,
       Effect.Log false "Error dialing websocket backend %s: %v"] :=
  (ServeHTTP_dial_failure (NewTCPProxy sampleEnv) sampleEnv dialFailWorld
    (mkRequest "example.com" "" [("node", "10-0-0-5")]) (by decide) (by decide)).1.trans
    (by decide)

/-- C7 fails as stated, in two ways. A request whose URL already has the
scheme `https` (an absolute request target) and whose resolved port is `8080`,
not `443`, is dialed over TLS with certificate verification disabled, not over
plain TCP. A request whose resolved port is the text `0443`, which denotes the
number 443, is dialed over plain TCP, not over TLS. -/
theorem NewTCPProxy_tls_off_443_counterexample :
    sampleEnv.InstanceFindByIP (strings.Replace "10-0-0-5" '-' '.') ≠ none ∧
    getTargetInfo sampleEnv [("node", "10-0-0-5"), ("port", "8080")]
      (mkRequest "example.com" "https" [("node", "10-0-0-5"), ("port", "8080")])
      = ("10.0.0.5", "8080") ∧
    dialAttempts ((NewTCPProxy sampleEnv).ServeHTTP sampleEnv happyWorld
      (mkRequest "example.com" "https" [("node", "10-0-0-5"), ("port", "8080")])).effects
      = [(Dialer.tlsDial true, "tcp", "10.0.0.5:8080")] ∧
    getTargetInfo sampleEnv [("node", "10-0-0-5")]
      (mkRequest "example.com:0443" "http" [("node", "10-0-0-5")]) = ("10.0.0.5", "0443") ∧
    portNumber "0443" = some 443 ∧
    dialAttempts ((NewTCPProxy sampleEnv).ServeHTTP sampleEnv happyWorld
      (mkRequest "example.com:0443" "http" [("node", "10-0-0-5")])).effects
      = [(Dialer.netDial, "tcp", "10.0.0.5:0443")] := by
  decide

/-- C7, amended: for a request that passes the liveness gate, the handler of
`NewTCPProxy` makes exactly one dial, to `host:port` as resolved by
`getTargetInfo`; it is a TLS dial with certificate verification disabled when
the resolved port is the text `443`, character for character, or the scheme of
the request URL is already `wss` or `https`, and a plain TCP dial (`net.Dial`)
in every other case, a port such as `0443` that denotes the number 443 in
another spelling included. -/
theorem NewTCPProxy_dial_mechanism (env : Env) (w : World) (r : Request)
    (hgate : env.InstanceFindByIP (strings.Replace (r.Vars.get "node") '-' '.') ≠ none) :
    dialAttempts ((NewTCPProxy env).ServeHTTP env w r).effects =
      [(if (getTargetInfo env r.Vars r).2 = "443" ∨ r.URL.Scheme = "wss" ∨
            r.URL.Scheme = "https"
          then Dialer.tlsDial true else Dialer.netDial,
        "tcp",
        (getTargetInfo env r.Vars r).1 ++ ":" ++ (getTargetInfo env r.Vars r).2)] := by
  rw [handlers.ServeHTTP_dialAttempts _ env w r hgate]
  have hdir : (NewTCPProxy env).Director r = director env r := rfl
  rw [hdir, handlers.director_URL_Host]
  unfold chooseDialer
  by_cases ht : (getTargetInfo env r.Vars r).2 = "443" ∨ r.URL.Scheme = "wss" ∨
      r.URL.Scheme = "https"
  · rw [if_pos ((handlers.director_tls_iff env r).mpr ht), if_pos ht]
  · rw [if_neg (fun h => ht ((handlers.director_tls_iff env r).mp h)), if_neg ht]
    rfl

theorem NewTCPProxy_dial_mechanism_witness :
    dialAttempts ((NewTCPProxy sampleEnv).ServeHTTP sampleEnv happyWorld
      (mkRequest "example.com:443" "" [("node", "10-0-0-5")])).effects
      = [(Dialer.tlsDial true, "tcp", "10.0.0.5:443")] ∧
    dialAttempts ((NewTCPProxy sampleEnv).ServeHTTP sampleEnv happyWorld
      (mkRequest "example.com" "" [("node", "10-0-0-5"), ("port", "8080")])).effects
      = [(Dialer.netDial, "tcp", "10.0.0.5:8080")] :=
  ⟨(NewTCPProxy_dial_mechanism sampleEnv happyWorld
      (mkRequest "example.com:443" "" [("node", "10-0-0-5")]) (by decide)).trans (by decide),
   (NewTCPProxy_dial_mechanism sampleEnv happyWorld
      (mkRequest "example.com" "" [("node", "10-0-0-5"), ("port", "8080")])
      (by decide)).trans (by decide)⟩

/-- C8, evaluated where the code departs from it: when the dial has succeeded
and the response writer is no `http.Hijacker`, or `Hijack()` returns an error,
`ServeHTTP` returns without closing the dialed backend connection, as the two
`defer`s are registered only after a successful hijack; on the write-failure
and the normal path both connections are closed. -/
theorem ServeHTTP_backend_left_open :
    ((NewTCPProxy sampleEnv).ServeHTTP sampleEnv noHijackerWorld
      (mkRequest "example.com" "" [("node", "10-0-0-5")]))
      = { effects := [Effect.Director, Effect.Dial Dialer.netDial "tcp" "10.0.0.5:80" true,
                      Effect.Error "Not a hijacker?" 500],
          returned := true } ∧
    openConns ((NewTCPProxy sampleEnv).ServeHTTP sampleEnv noHijackerWorld
      (mkRequest "example.com" "" [("node", "10-0-0-5")])).effects = [Conn.backend] ∧
    ((NewTCPProxy sampleEnv).ServeHTTP sampleEnv hijackErrorWorld
      (mkRequest "example.com" "" [("node", "10-0-0-5")]))
      = { effects := [Effect.Director, Effect.Dial Dialer.netDial "tcp" "10.0.0.5:80" true,
                      Effect.Hijack false, Effect.Log false "Hijack error: %v"],
          returned := true } ∧
    openConns ((NewTCPProxy sampleEnv).ServeHTTP sampleEnv hijackErrorWorld
      (mkRequest "example.com" "" [("node", "10-0-0-5")])).effects = [Conn.backend] ∧
    openConns ((NewTCPProxy sampleEnv).ServeHTTP sampleEnv happyWorld
      (mkRequest "example.com" "" [("node", "10-0-0-5")])).effects = [] := by
  decide

/-- C10 fails as stated: with `node` set to `10-0-0-5` and the alias `web` of
session `s1` registered for the instance `10.0.0.9`, the liveness check is made
on `10.0.0.5` and the backend dialed is `10.0.0.9:80`. -/
theorem NewTCPProxy_dials_alias_counterexample :
    strings.Replace (Vars.get [("node", "10-0-0-5"), ("alias", "web"), ("session", "s1")]
      "node") '-' '.' = "10.0.0.5" ∧
    sampleEnv.InstanceFindByIP "10.0.0.5" = some { IP := "10.0.0.5" } ∧
    dialAttempts ((NewTCPProxy sampleEnv).ServeHTTP sampleEnv happyWorld
      (mkRequest "example.com" ""
        [("node", "10-0-0-5"), ("alias", "web"), ("session", "s1")])).effects
      = [(Dialer.netDial, "tcp", "10.0.0.9:80")] := by
  decide

/-- C10, amended: on a request that passes the liveness gate the handler of
`NewTCPProxy` dials one address. When the alias is absent or matches no
instance and the `node` value with dashes replaced by dots parses as an IP
address, the host part of that address is this value, the one for which the
lookup by IP returned an instance. When the alias lookup finds an instance,
the host part is the IP of that instance instead. -/
theorem NewTCPProxy_dialed_host (env : Env) (w : World) (r : Request)
    (hgate : env.InstanceFindByIP (strings.Replace (r.Vars.get "node") '-' '.') ≠ none) :
    ((r.Vars.get "alias" = "" ∨
        env.InstanceFindByAlias (r.Vars.get "session") (r.Vars.get "alias") = none) →
      net.ParseIP (strings.Replace (r.Vars.get "node") '-' '.') = true →
      (dialAttempts ((NewTCPProxy env).ServeHTTP env w r).effects).map (fun d => d.2.2) =
        [strings.Replace (r.Vars.get "node") '-' '.' ++ ":" ++ targetPort env r.Vars r]) ∧
    (∀ inst, r.Vars.get "alias" ≠ "" →
      env.InstanceFindByAlias (r.Vars.get "session") (r.Vars.get "alias") = some inst →
      (dialAttempts ((NewTCPProxy env).ServeHTTP env w r).effects).map (fun d => d.2.2) =
        [inst.IP ++ ":" ++ targetPort env r.Vars r]) := by
  rw [handlers.ServeHTTP_dialAttempts _ env w r hgate]
  have hdir : (NewTCPProxy env).Director r = director env r := rfl
  rw [hdir, handlers.director_URL_Host]
  refine ⟨?_, ?_⟩
  · intro ha hp
    rw [handlers.getTargetInfo_no_alias env r.Vars r ha]
    simp [targetNode, hp]
  · intro inst ha hf
    rw [handlers.getTargetInfo_alias env r.Vars r inst ha hf]
    simp

theorem NewTCPProxy_dialed_host_witness :
    (dialAttempts ((NewTCPProxy sampleEnv).ServeHTTP sampleEnv happyWorld
      (mkRequest "example.com" "" [("node", "10-0-0-5")])).effects).map (fun d => d.2.2)
      = ["10.0.0.5:80"] :=
  ((NewTCPProxy_dialed_host sampleEnv happyWorld
      (mkRequest "example.com" "" [("node", "10-0-0-5")]) (by decide)).1
    (Or.inl (by decide)) (by decide)).trans (by decide)
